import Mathlib

/-!
Verification development for the face-analysis application
(browser UI that scans a video for frames matching a reference face).

The embedding below mirrors the application source:
* `AppState`, `FaceMatchResult` mirror the exported TypeScript types;
* `similarity`, `stepDetection`, `processFrameDets`, `scanFrames` embed the
  per-frame match-scoring loop of `processFrame` inside `startProcessing`;
* `classifyDetection` embeds the box-classification thresholds;
* `MachState` with its event step functions embeds the session state
  (the `useState` fields of `App`) together with the cooperative scheduling
  of the animation-frame loop (`requestAnimationFrame` / `await detectAllFaces`);
* `handleImageUpload`, `resetApp`, `stopProcessing`, `loadModelsEffect`,
  `renderScreen` embed the corresponding handlers and render conditions.

Numeric values are modelled as exact rationals; descriptor distance is the
value returned by the external engine's `euclideanDistance` (a collaborator,
hence an input of the model, constrained only by being a Euclidean distance,
i.e. nonnegative).
-/

namespace FaceTrace

/-- Session phase enumeration, mirroring `enum AppState` in the types module. -/
inductive AppState
  | LOADING_MODELS
  | IDLE
  | PROCESSING
  | FINISHED
deriving DecidableEq, Repr

/-- One face detection returned by the external engine for a video frame.
`distance` is the Euclidean descriptor distance to the reference descriptor
as computed by the engine's `euclideanDistance`; the bounding box and
landmarks are pure drawing data and are not needed by any claim.
The expression-probability mapping keeps the engine's key order. -/
structure Detection where
  distance : ℚ
  age : ℚ
  gender : String
  genderProbability : ℚ
  expressions : List (String × ℚ)
deriving DecidableEq, Repr

/-- JavaScript `Math.round`: round half toward positive infinity. -/
def jsRound (q : ℚ) : ℤ := ⌊q + 1/2⌋

/-- Dominant expression: the source sorts the mapping's keys by descending
probability with the host's stable sort and takes the first key, i.e. the
earliest key holding the maximal probability; an empty mapping yields
`undefined`, modelled as `none`. -/
def dominantExpression (exprs : List (String × ℚ)) : Option String :=
  match exprs with
  | [] => none
  | e :: rest => some (rest.foldl (fun acc p => if p.2 > acc.2 then p else acc) e).1

/-- Similarity score from descriptor distance: `Math.max(0, 1 - distance)`. -/
def similarity (d : ℚ) : ℚ := max 0 (1 - d)

/-- Best-match record, mirroring `interface FaceMatchResult`.  The snapshot
image (`frameDataUrl`) is opaque host canvas output; the capture is
identified here by its video `timestamp`, which the record also stores. -/
structure FaceMatchResult where
  score : ℚ
  timestamp : ℚ
  age : ℤ
  gender : String
  genderProbability : ℚ
  expression : Option String
deriving DecidableEq, Repr

/-- Record constructed by the `setBestMatch` updater from the winning
detection's biometrics, the frame-best score and the video time. -/
def mkMatchRecord (score : ℚ) (t : ℚ) (d : Detection) : FaceMatchResult :=
  { score := score
    timestamp := t
    age := jsRound d.age
    gender := d.gender
    genderProbability := d.genderProbability
    expression := dominantExpression d.expressions }

/-- One iteration of the per-detection `forEach` body of `processFrame`:
the accumulator carries `frameBestSim` (running maximum of this frame's
similarities, starting at 0) and the session's `bestMatch`; the record is
replaced exactly when there is no record yet or `frameBestSim` strictly
exceeds the stored score. -/
def stepDetection (t : ℚ) (acc : ℚ × Option FaceMatchResult) (d : Detection) :
    ℚ × Option FaceMatchResult :=
  let sim := similarity d.distance
  let frameBestSim := if sim > acc.1 then sim else acc.1
  let best :=
    match acc.2 with
    | none => some (mkMatchRecord frameBestSim t d)
    | some prev =>
        if frameBestSim > prev.score then some (mkMatchRecord frameBestSim t d)
        else some prev
  (frameBestSim, best)

/-- Content of one video frame handed to the scan loop: the playback time
and the detections the engine returned for it (already confidence-filtered
by the engine at `minConfidence` 0.6). -/
structure Frame where
  time : ℚ
  dets : List Detection
deriving DecidableEq, Repr

/-- Processing of all detections of one frame: `frameBestSim` starts at 0,
the detections are visited in order; returns the final `frameBestSim`
(which `processFrame` publishes as the current similarity) and the updated
best-match record. -/
def processFrameDets (t : ℚ) (best : Option FaceMatchResult) (dets : List Detection) :
    ℚ × Option FaceMatchResult :=
  dets.foldl (stepDetection t) (0, best)

/-- Whole-run scan: fold `processFrame`'s per-frame logic over a fixed
sequence of frames, threading the best-match record. -/
def scanFrames (best : Option FaceMatchResult) (frames : List Frame) :
    Option FaceMatchResult :=
  frames.foldl (fun b f => (processFrameDets f.time b f.dets).2) best

/-- Box classification of a detection, from the threshold tests
`similarity >= 0.5` and `similarity >= 0.4 && similarity < 0.5`. -/
inductive BoxStyle
  | targetMatch
  | possibleMatch
  | noMatch
deriving DecidableEq, Repr

/-- Threshold test `const isTarget = similarity >= 0.5`. -/
def isTarget (sim : ℚ) : Bool := decide (sim ≥ (0.5 : ℚ))

/-- Threshold test `const isPossible = similarity >= 0.4 && similarity < 0.5`. -/
def isPossible (sim : ℚ) : Bool := decide (sim ≥ (0.4 : ℚ)) && decide (sim < (0.5 : ℚ))

/-- Classification used by the drawing branch: target match beats possible
match beats the no-match default, in the source's if/else-if order. -/
def classifyDetection (sim : ℚ) : BoxStyle :=
  if isTarget sim then .targetMatch
  else if isPossible sim then .possibleMatch
  else .noMatch

/-- Similarity of a time-tagged detection (frame time paired with the
detection), as computed inside the scan loop. -/
def simOf (td : ℚ × Detection) : ℚ := similarity td.2.distance

/-- Record produced when a time-tagged detection wins: its own similarity as
score, the frame's time, and its biometrics. -/
def recordOf (td : ℚ × Detection) : FaceMatchResult :=
  mkMatchRecord (simOf td) td.1 td.2

/-- Flattening of a frame sequence into its time-tagged detections in the
order the scan loop visits them. -/
def flattenFrames (frames : List Frame) : List (ℚ × Detection) :=
  frames.foldr (fun f acc => f.dets.map (fun d => (f.time, d)) ++ acc) []

/-- Maximum similarity over a detection sequence, 0 when empty (written from
the spec's notion of the globally maximum similarity across the sequence). -/
def maxSimilarity (tds : List (ℚ × Detection)) : ℚ :=
  (tds.map simOf).foldr max 0

/-- Spec-side winner (written from the spec's words, for the refinement
claim): the earliest detection whose similarity equals the globally maximum
similarity across the fixed sequence — ties broken by earliest occurrence. -/
def bestDetectionSpec (tds : List (ℚ × Detection)) : Option (ℚ × Detection) :=
  tds.find? (fun td => decide (simOf td = maxSimilarity tds))

/-- Spec-side final Match Record for a fixed sequence of per-frame
detections: the record of the earliest globally-maximal detection. -/
def finalMatchSpec (frames : List Frame) : Option FaceMatchResult :=
  (bestDetectionSpec (flattenFrames frames)).map recordOf

/-- Per-detection record update with the frame-best bookkeeping removed;
`stepDetection` is proved to coincide with it under the scan invariant. -/
def simpleStep (b : Option FaceMatchResult) (td : ℚ × Detection) :
    Option FaceMatchResult :=
  match b with
  | none => some (recordOf td)
  | some prev => if simOf td > prev.score then some (recordOf td) else some prev

/-- Earliest-strict-max fold over time-tagged detections: a later detection
displaces the current winner only with a strictly greater similarity. -/
def foldBest (b : Option (ℚ × Detection)) (tds : List (ℚ × Detection)) :
    Option (ℚ × Detection) :=
  tds.foldl (fun acc td =>
    match acc with
    | none => some td
    | some a => if simOf td > simOf a then some td else some a) b

/-- Score held by an optional record; 0 when absent (the session starts with
no record and the update path treats that as score 0 to beat). -/
def recScore : Option FaceMatchResult → ℚ
  | none => 0
  | some r => r.score

/-- Invariant of the per-frame fold: the running frame-best is nonnegative,
is 0 while no record exists, and never exceeds the stored record's score. -/
def ScanInv (fb : ℚ) (b : Option FaceMatchResult) : Prop :=
  0 ≤ fb ∧ (b = none → fb = 0) ∧ ∀ r, b = some r → fb ≤ r.score

/-- C3: for every detection with Euclidean descriptor distance d ≥ 0, the
similarity score max(0, 1 − d) lies in [0, 1], equals 1 iff d = 0, and
equals 0 iff d ≥ 1. -/
theorem similarity_score_spec (d : ℚ) (hd : 0 ≤ d) :
    0 ≤ similarity d ∧ similarity d ≤ 1 ∧
      (similarity d = 1 ↔ d = 0) ∧ (similarity d = 0 ↔ 1 ≤ d) := by
  unfold similarity
  rcases le_or_lt (1 - d) 0 with h | h
  · rw [max_eq_left h]
    refine ⟨le_refl 0, by linarith, ?_, ?_⟩
    · constructor
      · intro h0; exact absurd h0 (by norm_num)
      · intro h0; linarith
    · constructor
      · intro _; linarith
      · intro _; rfl
  · rw [max_eq_right (le_of_lt h)]
    refine ⟨by linarith, by linarith, ?_, ?_⟩
    · constructor
      · intro h0; linarith
      · intro h0; rw [h0]; norm_num
    · constructor
      · intro h0; linarith
      · intro h0; linarith

/-- Witness for `similarity_score_spec` at the concrete distance 1/2. -/
theorem similarity_score_spec_witness :
    (0 : ℚ) ≤ 1/2 ∧
      (0 ≤ similarity (1/2) ∧ similarity (1/2) ≤ 1 ∧
        (similarity (1/2) = 1 ↔ (1/2 : ℚ) = 0) ∧
        (similarity (1/2) = 0 ↔ 1 ≤ (1/2 : ℚ))) :=
  ⟨by norm_num, similarity_score_spec (1/2) (by norm_num)⟩

/-- C5: classification bands of the drawing branch — similarity ≥ 0.5 is a
target match, 0.4 ≤ similarity < 0.5 is a possible match, similarity < 0.4
is no match, and similarity exactly 0.5 is a target match. -/
theorem classification_bands (s : ℚ) :
    ((0.5 : ℚ) ≤ s → classifyDetection s = .targetMatch) ∧
    ((0.4 : ℚ) ≤ s → s < (0.5 : ℚ) → classifyDetection s = .possibleMatch) ∧
    (s < (0.4 : ℚ) → classifyDetection s = .noMatch) ∧
    classifyDetection (0.5 : ℚ) = .targetMatch := by
  refine ⟨?_, ?_, ?_, ?_⟩
  · intro h
    simp [classifyDetection, isTarget, h]
  · intro h1 h2
    have hn : ¬ ((0.5 : ℚ) ≤ s) := not_le.mpr h2
    simp [classifyDetection, isTarget, isPossible, hn, h1, h2]
  · intro h
    have h1 : ¬ ((0.5 : ℚ) ≤ s) := by
      intro hc
      norm_num at h hc
      linarith
    have h2 : ¬ ((0.4 : ℚ) ≤ s) := not_le.mpr h
    simp [classifyDetection, isTarget, isPossible, h1, h2]
  · norm_num [classifyDetection, isTarget]

/-- Witness for `classification_bands` at similarities 0.5, 0.4999 and 0.39. -/
theorem classification_bands_witness :
    classifyDetection (1/2) = .targetMatch ∧
      classifyDetection (4999/10000) = .possibleMatch ∧
      classifyDetection (39/100) = .noMatch :=
  ⟨(classification_bands (1/2)).1 (by norm_num),
   (classification_bands (4999/10000)).2.1 (by norm_num) (by norm_num),
   (classification_bands (39/100)).2.2.1 (by norm_num)⟩

theorem similarity_nonneg (d : ℚ) : 0 ≤ similarity d := le_max_left 0 _

theorem simOf_nonneg (td : ℚ × Detection) : 0 ≤ simOf td := similarity_nonneg _

theorem recordOf_score (td : ℚ × Detection) : (recordOf td).score = simOf td := rfl

/-- Evaluation of the detection step when no record exists yet and the
frame-best is still 0: the frame-best becomes the detection's similarity
and a record is created unconditionally. -/
theorem stepDetection_none (t : ℚ) (d : Detection) :
    stepDetection t (0, none) d =
      (similarity d.distance, some (mkMatchRecord (similarity d.distance) t d)) := by
  have h := similarity_nonneg d.distance
  simp only [stepDetection]
  rcases lt_or_le 0 (similarity d.distance) with h1 | h1
  · simp [h1]
  · have h0 : similarity d.distance = 0 := le_antisymm h1 h
    simp [h0]

/-- Evaluation of the detection step on an existing record, under the
invariant that the frame-best does not exceed the stored score: the record
is replaced exactly when the detection's own similarity strictly exceeds
the stored score, and then the published frame-best is that similarity. -/
theorem stepDetection_some (t fb : ℚ) (d : Detection) (prev : FaceMatchResult)
    (hle : fb ≤ prev.score) :
    stepDetection t (fb, some prev) d =
      if prev.score < similarity d.distance then
        (similarity d.distance, some (mkMatchRecord (similarity d.distance) t d))
      else ((if fb < similarity d.distance then similarity d.distance else fb),
            some prev) := by
  simp only [stepDetection]
  rcases lt_or_le fb (similarity d.distance) with h1 | h1
  · rcases lt_or_le prev.score (similarity d.distance) with h2 | h2
    · simp [h1, h2]
    · simp [h1, not_lt.mpr h2]
  · have h2 : ¬ (prev.score < similarity d.distance) :=
      not_lt.mpr (le_trans h1 hle)
    have h3 : ¬ (prev.score < fb) := not_lt.mpr hle
    simp [not_lt.mpr h1, h2, h3]

/-- Under the scan invariant, one detection step computes the same record as
the simplified step, and the invariant is maintained. -/
theorem stepDetection_agrees (t fb : ℚ) (b : Option FaceMatchResult) (d : Detection)
    (h : ScanInv fb b) :
    (stepDetection t (fb, b) d).2 = simpleStep b (t, d) ∧
      ScanInv (stepDetection t (fb, b) d).1 (stepDetection t (fb, b) d).2 := by
  obtain ⟨hfb, hnone, hsome⟩ := h
  cases b with
  | none =>
      have h0 : fb = 0 := hnone rfl
      subst h0
      rw [stepDetection_none]
      refine ⟨rfl, similarity_nonneg _, by simp, ?_⟩
      intro r hr
      rw [Option.some_inj] at hr
      subst hr
      exact le_refl _
  | some prev =>
      have hle : fb ≤ prev.score := hsome prev rfl
      rw [stepDetection_some t fb d prev hle]
      rcases lt_or_le prev.score (similarity d.distance) with h2 | h2
      · rw [if_pos h2]
        constructor
        · simp [simpleStep, simOf, recordOf, gt_iff_lt, h2]
        · refine ⟨similarity_nonneg _, by simp, ?_⟩
          intro r hr
          rw [Option.some_inj] at hr
          subst hr
          exact le_refl _
      · rw [if_neg (not_lt.mpr h2)]
        constructor
        · simp [simpleStep, simOf, gt_iff_lt, not_lt.mpr h2]
        · refine ⟨?_, by simp, ?_⟩
          · rcases lt_or_le fb (similarity d.distance) with h3 | h3
            · rw [if_pos h3]; exact similarity_nonneg _
            · rw [if_neg (not_lt.mpr h3)]; exact hfb
          · intro r hr
            rw [Option.some_inj] at hr
            subst hr
            rcases lt_or_le fb (similarity d.distance) with h3 | h3
            · rw [if_pos h3]; exact h2
            · rw [if_neg (not_lt.mpr h3)]; exact hle

/-- The per-frame fold of detection steps computes, under the scan
invariant, the same record as the simplified fold over time-tagged
detections. -/
theorem foldl_step_agrees (dets : List Detection) :
    ∀ (t fb : ℚ) (b : Option FaceMatchResult), ScanInv fb b →
      (dets.foldl (stepDetection t) (fb, b)).2 =
        (dets.map (fun d => (t, d))).foldl simpleStep b := by
  induction dets with
  | nil => intro t fb b _; rfl
  | cons d ds ih =>
      intro t fb b hinv
      obtain ⟨hstep, hinv'⟩ := stepDetection_agrees t fb b d hinv
      have hpair : stepDetection t (fb, b) d =
          ((stepDetection t (fb, b) d).1, (stepDetection t (fb, b) d).2) := rfl
      calc (List.foldl (stepDetection t) (fb, b) (d :: ds)).2
          = (List.foldl (stepDetection t) (stepDetection t (fb, b) d) ds).2 := rfl
        _ = (List.foldl (stepDetection t)
              ((stepDetection t (fb, b) d).1, (stepDetection t (fb, b) d).2) ds).2 := by
              rw [← hpair]
        _ = (ds.map (fun d => (t, d))).foldl simpleStep (stepDetection t (fb, b) d).2 :=
              ih t _ _ hinv'
        _ = ((d :: ds).map (fun d => (t, d))).foldl simpleStep b := by
              rw [hstep]; rfl

/-- Frame-level corollary: processing one frame's detections from a record
whose score is nonnegative agrees with the simplified fold. -/
theorem processFrameDets_agrees (t : ℚ) (b : Option FaceMatchResult)
    (dets : List Detection) (hb : ∀ r, b = some r → 0 ≤ r.score) :
    (processFrameDets t b dets).2 = (dets.map (fun d => (t, d))).foldl simpleStep b :=
  foldl_step_agrees dets t 0 b ⟨le_refl 0, fun _ => rfl, fun r hr => hb r hr⟩

/-- The simplified fold keeps record scores nonnegative. -/
theorem simpleStep_fold_nonneg (tds : List (ℚ × Detection)) :
    ∀ (b : Option FaceMatchResult), (∀ r, b = some r → 0 ≤ r.score) →
      ∀ r, tds.foldl simpleStep b = some r → 0 ≤ r.score := by
  induction tds with
  | nil => intro b hb r hr; exact hb r hr
  | cons td tds ih =>
      intro b hb r hr
      refine ih (simpleStep b td) ?_ r hr
      intro r' hr'
      cases b with
      | none =>
          simp only [simpleStep] at hr'
          rw [Option.some_inj] at hr'
          subst hr'
          rw [recordOf_score]
          exact simOf_nonneg td
      | some prev =>
          simp only [simpleStep] at hr'
          by_cases hgt : simOf td > prev.score
          · rw [if_pos hgt, Option.some_inj] at hr'
            subst hr'
            rw [recordOf_score]
            exact simOf_nonneg td
          · rw [if_neg hgt, Option.some_inj] at hr'
            subst hr'
            exact hb prev rfl

/-- The whole-run scan agrees with the simplified fold over the flattened
sequence of time-tagged detections. -/
theorem scanFrames_eq_simpleFold (frames : List Frame) :
    ∀ (b : Option FaceMatchResult), (∀ r, b = some r → 0 ≤ r.score) →
      scanFrames b frames = (flattenFrames frames).foldl simpleStep b := by
  induction frames with
  | nil => intro b _; rfl
  | cons f fs ih =>
      intro b hb
      have hfr := processFrameDets_agrees f.time b f.dets hb
      have hstep : scanFrames b (f :: fs) =
          scanFrames (processFrameDets f.time b f.dets).2 fs := rfl
      have hflat : flattenFrames (f :: fs) =
          f.dets.map (fun d => (f.time, d)) ++ flattenFrames fs := rfl
      rw [hstep, hflat, List.foldl_append, ← hfr]
      refine ih _ ?_
      intro r hr
      rw [hfr] at hr
      exact simpleStep_fold_nonneg _ b hb r hr

/-- The simplified record fold is the image, under record construction, of
the earliest-strict-max fold on time-tagged detections. -/
theorem simpleFold_eq_foldBest (tds : List (ℚ × Detection)) :
    ∀ (b : Option (ℚ × Detection)),
      tds.foldl simpleStep (b.map recordOf) = (foldBest b tds).map recordOf := by
  induction tds with
  | nil => intro b; rfl
  | cons td tds ih =>
      intro b
      cases b with
      | none =>
          have h1 : simpleStep none td = (some td).map recordOf := rfl
          calc List.foldl simpleStep (Option.map recordOf none) (td :: tds)
              = List.foldl simpleStep ((some td).map recordOf) tds := by
                rw [show Option.map recordOf none = none from rfl]; rfl
            _ = (foldBest (some td) tds).map recordOf := ih (some td)
            _ = (foldBest none (td :: tds)).map recordOf := rfl
      | some a =>
          by_cases hgt : simOf td > simOf a
          · have h1 : simpleStep (some (recordOf a)) td = (some td).map recordOf := by
              simp [simpleStep, recordOf_score, hgt]
            have h2 : foldBest (some a) (td :: tds) = foldBest (some td) tds := by
              simp [foldBest, hgt]
            calc List.foldl simpleStep (Option.map recordOf (some a)) (td :: tds)
                = List.foldl simpleStep (simpleStep (some (recordOf a)) td) tds := rfl
              _ = List.foldl simpleStep ((some td).map recordOf) tds := by rw [h1]
              _ = (foldBest (some td) tds).map recordOf := ih (some td)
              _ = (foldBest (some a) (td :: tds)).map recordOf := by rw [h2]
          · have h1 : simpleStep (some (recordOf a)) td = (some a).map recordOf := by
              simp [simpleStep, recordOf_score, hgt]
            have h2 : foldBest (some a) (td :: tds) = foldBest (some a) tds := by
              simp [foldBest, hgt]
            calc List.foldl simpleStep (Option.map recordOf (some a)) (td :: tds)
                = List.foldl simpleStep (simpleStep (some (recordOf a)) td) tds := rfl
              _ = List.foldl simpleStep ((some a).map recordOf) tds := by rw [h1]
              _ = (foldBest (some a) tds).map recordOf := ih (some a)
              _ = (foldBest (some a) (td :: tds)).map recordOf := by rw [h2]

theorem maxSimilarity_nil : maxSimilarity [] = 0 := rfl

theorem maxSimilarity_cons (x : ℚ × Detection) (xs : List (ℚ × Detection)) :
    maxSimilarity (x :: xs) = max (simOf x) (maxSimilarity xs) := rfl

theorem maxSimilarity_nonneg (tds : List (ℚ × Detection)) : 0 ≤ maxSimilarity tds := by
  induction tds with
  | nil => exact le_refl 0
  | cons x xs ih => rw [maxSimilarity_cons]; exact le_trans ih (le_max_right _ _)

/-- Characterization of the earliest-strict-max fold started on a held
candidate: the candidate survives unless some later detection is strictly
better, in which case the earliest detection achieving the running maximum
wins. -/
theorem foldBest_some_eq (tds : List (ℚ × Detection)) :
    ∀ a : ℚ × Detection,
      foldBest (some a) tds =
        if maxSimilarity tds ≤ simOf a then some a
        else tds.find? (fun td => decide (simOf td = maxSimilarity tds)) := by
  induction tds with
  | nil =>
      intro a
      rw [if_pos (by rw [maxSimilarity_nil]; exact simOf_nonneg a)]
      rfl
  | cons x xs ih =>
      intro a
      have hstep : foldBest (some a) (x :: xs) =
          foldBest (if simOf x > simOf a then some x else some a) xs := rfl
      by_cases hxa : simOf x > simOf a
      · rw [hstep, if_pos hxa, ih x]
        have hcond : ¬ (maxSimilarity (x :: xs) ≤ simOf a) := by
          rw [maxSimilarity_cons]
          intro hc
          exact absurd (le_trans (le_max_left _ _) hc) (not_le.mpr hxa)
        rw [if_neg hcond]
        by_cases h1 : maxSimilarity xs ≤ simOf x
        · rw [if_pos h1]
          have hm : maxSimilarity (x :: xs) = simOf x := by
            rw [maxSimilarity_cons]; exact max_eq_left h1
          rw [hm]
          rw [List.find?_cons_of_pos _ (by simp)]
        · push_neg at h1
          have hm : maxSimilarity (x :: xs) = maxSimilarity xs := by
            rw [maxSimilarity_cons]; exact max_eq_right (le_of_lt h1)
          rw [hm]
          rw [if_neg (not_le.mpr h1)]
          rw [List.find?_cons_of_neg _ (by simp; exact ne_of_lt h1)]
      · push_neg at hxa
        rw [hstep, if_neg (not_lt.mpr hxa), ih a]
        by_cases h1 : maxSimilarity xs ≤ simOf a
        · rw [if_pos h1]
          have hcond : maxSimilarity (x :: xs) ≤ simOf a := by
            rw [maxSimilarity_cons]; exact max_le hxa h1
          rw [if_pos hcond]
        · push_neg at h1
          rw [if_neg (not_le.mpr h1)]
          have hcond : ¬ (maxSimilarity (x :: xs) ≤ simOf a) := by
            rw [maxSimilarity_cons]
            intro hc
            exact absurd (le_trans (le_max_right _ _) hc) (not_le.mpr h1)
          rw [if_neg hcond]
          have hxm : simOf x < maxSimilarity xs := lt_of_le_of_lt hxa h1
          have hm : maxSimilarity (x :: xs) = maxSimilarity xs := by
            rw [maxSimilarity_cons]; exact max_eq_right (le_of_lt hxm)
          rw [hm]
          rw [List.find?_cons_of_neg _ (by simp; exact ne_of_lt hxm)]

/-- The earliest-strict-max fold started empty returns exactly the spec-side
winner: the earliest detection achieving the globally maximum similarity. -/
theorem foldBest_none_eq (tds : List (ℚ × Detection)) :
    foldBest none tds = bestDetectionSpec tds := by
  cases tds with
  | nil => rfl
  | cons x xs =>
      have hstep : foldBest none (x :: xs) = foldBest (some x) xs := rfl
      rw [hstep, foldBest_some_eq xs x]
      unfold bestDetectionSpec
      by_cases h1 : maxSimilarity xs ≤ simOf x
      · rw [if_pos h1]
        have hm : maxSimilarity (x :: xs) = simOf x := by
          rw [maxSimilarity_cons]; exact max_eq_left h1
        rw [hm]
        rw [List.find?_cons_of_pos _ (by simp)]
      · push_neg at h1
        rw [if_neg (not_le.mpr h1)]
        have hm : maxSimilarity (x :: xs) = maxSimilarity xs := by
          rw [maxSimilarity_cons]; exact max_eq_right (le_of_lt h1)
        rw [hm]
        rw [List.find?_cons_of_neg _ (by simp; exact ne_of_lt h1)]

/-- C1: for every fixed finite sequence of per-frame detections processed in
one run of the frame scan loop starting with no record, the final Match
Record is exactly the record of the earliest detection achieving the
globally maximum similarity over the sequence — the record is replaced only
by a strictly greater score, so equal scores never replace and the first
strictly-greater update wins. -/
theorem final_match_is_earliest_global_max (frames : List Frame) :
    scanFrames none frames = finalMatchSpec frames := by
  rw [scanFrames_eq_simpleFold frames none (fun r hr => Option.noConfusion hr)]
  have h2 := simpleFold_eq_foldBest (flattenFrames frames) none
  rw [show (Option.map recordOf none : Option FaceMatchResult) = none from rfl] at h2
  rw [h2, foldBest_none_eq]
  rfl

/-- Record values taken by the session's best match after each detection of
one frame, continuing the frame fold from the given accumulator. -/
def frameTrace (t : ℚ) : ℚ × Option FaceMatchResult → List Detection →
    List (Option FaceMatchResult)
  | _, [] => []
  | acc, d :: ds =>
      let next := stepDetection t acc d
      next.2 :: frameTrace t next ds

/-- Record values taken by the session's best match after each detection
across a whole run over the given frames. -/
def scanTrace : Option FaceMatchResult → List Frame → List (Option FaceMatchResult)
  | _, [] => []
  | b, f :: fs =>
      frameTrace f.time (0, b) f.dets ++
        scanTrace (processFrameDets f.time b f.dets).2 fs

/-- The record's score never decreases across one detection step, provided
the running frame-best is nonnegative. -/
theorem stepDetection_recScore_mono (t fb : ℚ) (b : Option FaceMatchResult)
    (d : Detection) (hfb : 0 ≤ fb) :
    recScore b ≤ recScore (stepDetection t (fb, b) d).2 := by
  cases b with
  | none =>
      simp only [stepDetection, recScore, mkMatchRecord]
      split_ifs with h
      · exact similarity_nonneg _
      · exact hfb
  | some prev =>
      simp only [stepDetection, recScore]
      split_ifs with h1 h2 h3
      · exact le_of_lt h2
      · exact le_refl _
      · exact le_of_lt h3
      · exact le_refl _

/-- The running frame-best stays nonnegative across one detection step. -/
theorem stepDetection_fst_nonneg (t : ℚ) (acc : ℚ × Option FaceMatchResult)
    (d : Detection) (hfb : 0 ≤ acc.1) : 0 ≤ (stepDetection t acc d).1 := by
  have h : (stepDetection t acc d).1 =
      if similarity d.distance > acc.1 then similarity d.distance else acc.1 := rfl
  rw [h]
  split_ifs with h1
  · exact similarity_nonneg _
  · exact hfb

/-- The record scores along one frame's trace are non-decreasing. -/
theorem frameTrace_chain (dets : List Detection) :
    ∀ (t fb : ℚ) (b : Option FaceMatchResult), 0 ≤ fb →
      List.Chain' (fun x y => recScore x ≤ recScore y)
        (b :: frameTrace t (fb, b) dets) := by
  induction dets with
  | nil => intro t fb b _; simp [frameTrace]
  | cons d ds ih =>
      intro t fb b hfb
      have hnext : frameTrace t (fb, b) (d :: ds) =
          (stepDetection t (fb, b) d).2 ::
            frameTrace t (stepDetection t (fb, b) d) ds := rfl
      rw [hnext, List.chain'_cons]
      constructor
      · exact stepDetection_recScore_mono t fb b d hfb
      · have hfb' : 0 ≤ (stepDetection t (fb, b) d).1 :=
          stepDetection_fst_nonneg t (fb, b) d hfb
        have heta : stepDetection t (fb, b) d =
            ((stepDetection t (fb, b) d).1, (stepDetection t (fb, b) d).2) := rfl
        rw [heta]
        exact ih t _ _ hfb'

/-- The last record value along a frame's trace, prefixed with the starting
record, is the frame fold's final record. -/
theorem frameTrace_getLast (dets : List Detection) :
    ∀ (t : ℚ) (acc : ℚ × Option FaceMatchResult),
      (acc.2 :: frameTrace t acc dets).getLast? =
        some (dets.foldl (stepDetection t) acc).2 := by
  induction dets with
  | nil => intro t acc; rfl
  | cons d ds ih =>
      intro t acc
      have hnext : frameTrace t acc (d :: ds) =
          (stepDetection t acc d).2 :: frameTrace t (stepDetection t acc d) ds := rfl
      rw [hnext, List.getLast?_cons_cons]
      exact ih t (stepDetection t acc d)

/-- The record scores along a whole run's trace are non-decreasing. -/
theorem scanTrace_chain (frames : List Frame) :
    ∀ b : Option FaceMatchResult,
      List.Chain' (fun x y => recScore x ≤ recScore y) (b :: scanTrace b frames) := by
  induction frames with
  | nil => intro b; simp [scanTrace]
  | cons f fs ih =>
      intro b
      have hsplit : scanTrace b (f :: fs) =
          frameTrace f.time (0, b) f.dets ++
            scanTrace (processFrameDets f.time b f.dets).2 fs := rfl
      rw [hsplit, show (b :: (frameTrace f.time (0, b) f.dets ++
            scanTrace (processFrameDets f.time b f.dets).2 fs)) =
          ((b :: frameTrace f.time (0, b) f.dets) ++
            scanTrace (processFrameDets f.time b f.dets).2 fs) from rfl]
      have h1 : List.Chain' (fun x y => recScore x ≤ recScore y)
          (b :: frameTrace f.time (0, b) f.dets) :=
        frameTrace_chain f.dets f.time 0 b (le_refl 0)
      have h2 := ih (processFrameDets f.time b f.dets).2
      have hlast : (b :: frameTrace f.time (0, b) f.dets).getLast? =
          some (processFrameDets f.time b f.dets).2 :=
        frameTrace_getLast f.dets f.time (0, b)
      refine List.Chain'.append h1 ((List.chain'_cons'.mp h2).2) ?_
      intro x hx y hy
      rw [hlast, Option.mem_def, Option.some_inj] at hx
      subst hx
      exact (List.chain'_cons'.mp h2).1 y hy

/-- Any list of optional records trivially holds at most one record per
entry (the session state's single `bestMatch` field). -/
theorem optionRecord_at_most_one (l : List (Option FaceMatchResult)) :
    l.all (fun b => decide (b.toList.length ≤ 1)) = true := by
  induction l with
  | nil => rfl
  | cons x xs ih =>
      rw [List.all_cons, ih, Bool.and_true]
      cases x <;> simp

/-- C2: within one processing run the Match Record's score is monotonically
non-decreasing across successive values taken by the record, and the
session holds at most one Match Record at any point of the run. -/
theorem match_record_monotone_and_unique (frames : List Frame) :
    List.Chain' (fun x y => recScore x ≤ recScore y) (none :: scanTrace none frames) ∧
      (none :: scanTrace none frames).all (fun b => decide (b.toList.length ≤ 1)) = true :=
  ⟨scanTrace_chain frames none, optionRecord_at_most_one _⟩

/-- One detection step always leaves a record present: from `none` the
updater creates a record unconditionally (`!prev` branch), from `some` it
returns either the new or the previous record. -/
theorem stepDetection_isSome (t : ℚ) (acc : ℚ × Option FaceMatchResult)
    (d : Detection) : (stepDetection t acc d).2.isSome := by
  rcases acc with ⟨fb, b⟩
  cases b with
  | none => simp [stepDetection]
  | some prev =>
      simp only [stepDetection]
      split_ifs <;> simp

/-- A present record survives the rest of a frame's fold. -/
theorem foldl_step_isSome (dets : List Detection) :
    ∀ (t : ℚ) (acc : ℚ × Option FaceMatchResult), acc.2.isSome →
      (dets.foldl (stepDetection t) acc).2.isSome := by
  induction dets with
  | nil => intro t acc h; exact h
  | cons d ds ih =>
      intro t acc _
      exact ih t (stepDetection t acc d) (stepDetection_isSome t acc d)

/-- Processing a nonempty frame always leaves a record present. -/
theorem processFrameDets_isSome (t : ℚ) (b : Option FaceMatchResult)
    (dets : List Detection) (h : dets ≠ []) :
    (processFrameDets t b dets).2.isSome := by
  cases dets with
  | nil => exact absurd rfl h
  | cons d ds =>
      unfold processFrameDets
      rw [List.foldl_cons]
      exact foldl_step_isSome ds t _ (stepDetection_isSome t (0, b) d)

theorem processFrameDets_nil (t : ℚ) (b : Option FaceMatchResult) :
    processFrameDets t b [] = (0, b) := rfl

/-- A run leaves a record exactly when one was present initially or some
frame held at least one detection. -/
theorem scanFrames_isSome_iff (frames : List Frame) :
    ∀ b : Option FaceMatchResult,
      (scanFrames b frames).isSome = true ↔
        b.isSome = true ∨ ∃ f ∈ frames, f.dets ≠ [] := by
  induction frames with
  | nil => intro b; simp [scanFrames]
  | cons f fs ih =>
      intro b
      have hstep : scanFrames b (f :: fs) =
          scanFrames (processFrameDets f.time b f.dets).2 fs := rfl
      rw [hstep, ih]
      have hmid : (processFrameDets f.time b f.dets).2.isSome = true ↔
          b.isSome = true ∨ f.dets ≠ [] := by
        constructor
        · intro h
          by_cases hd : f.dets = []
          · left; rw [hd, processFrameDets_nil] at h; exact h
          · right; exact hd
        · intro h
          rcases h with h | h
          · exact foldl_step_isSome f.dets f.time (0, b) h
          · exact processFrameDets_isSome f.time b f.dets h
      rw [hmid]
      simp only [List.mem_cons]
      constructor
      · rintro ((hb | hf) | ⟨g, hg, hgne⟩)
        · exact Or.inl hb
        · exact Or.inr ⟨f, Or.inl rfl, hf⟩
        · exact Or.inr ⟨g, Or.inr hg, hgne⟩
      · rintro (hb | ⟨g, (hg | hg), hgne⟩)
        · exact Or.inl (Or.inl hb)
        · subst hg; exact Or.inl (Or.inr hgne)
        · exact Or.inr ⟨g, hg, hgne⟩

/-- Detection whose descriptor distance is 1, hence similarity exactly 0. -/
def zeroSimDetection : Detection :=
  { distance := 1, age := 33, gender := "male", genderProbability := 9/10,
    expressions := [("neutral", 1)] }

/-- A frame holding only the zero-similarity detection. -/
def zeroSimFrame : Frame := { time := 0, dets := [zeroSimDetection] }

/-- C6 counterexample: in a run whose only detection has similarity 0, a
Match Record is nevertheless created (with score 0) — the update condition
`!prev || frameBestSim > prev.score` fires on the `!prev` disjunct, so the
claim that no record is ever created when no similarity exceeds the initial
0 is false on this input. -/
theorem match_created_despite_zero_similarity :
    similarity zeroSimDetection.distance = 0 ∧
      scanFrames none [zeroSimFrame] =
        some { score := 0, timestamp := 0, age := 33, gender := "male",
               genderProbability := 9/10, expression := some "neutral" } := by
  constructor
  · norm_num [similarity, zeroSimDetection]
  · norm_num [scanFrames, processFrameDets, stepDetection, similarity,
      mkMatchRecord, zeroSimFrame, zeroSimDetection, jsRound, dominantExpression]

/-- C6 amended: a Match Record is created at the first processed detection
of a run regardless of its score (a record exists after the run iff some
frame held a detection), and an existing record is replaced only when a
strictly higher score appears — a detection whose similarity does not
exceed the stored score leaves the record unchanged. -/
theorem match_creation_and_replacement (frames : List Frame) :
    ((scanFrames none frames).isSome = true ↔ ∃ f ∈ frames, f.dets ≠ []) ∧
      ∀ (t fb : ℚ) (prev : FaceMatchResult) (d : Detection),
        fb ≤ prev.score → similarity d.distance ≤ prev.score →
        (stepDetection t (fb, some prev) d).2 = some prev := by
  constructor
  · rw [scanFrames_isSome_iff frames none]
    simp
  · intro t fb prev d h1 h2
    simp only [stepDetection]
    have h3 : ¬ ((if similarity d.distance > fb then similarity d.distance else fb) >
        prev.score) := by
      split_ifs with h4
      · exact not_lt.mpr h2
      · exact not_lt.mpr h1
    rw [if_neg h3]

/-- Record held before the witness step: score 9/10. -/
def witnessPrevRecord : FaceMatchResult :=
  { score := 9/10, timestamp := 3, age := 40, gender := "female",
    genderProbability := 1, expression := some "happy" }

/-- Detection whose similarity is exactly 9/10, equalling the stored score. -/
def equalScoreDetection : Detection :=
  { distance := 1/10, age := 22, gender := "male", genderProbability := 1/2,
    expressions := [("sad", 1)] }

/-- Witness for `match_creation_and_replacement`: the all-zero-similarity
run creates a record, and a detection whose similarity equals the stored
score 9/10 does not replace the record. -/
theorem match_creation_and_replacement_witness :
    (scanFrames none [zeroSimFrame]).isSome = true ∧
      (stepDetection 5 (0, some witnessPrevRecord) equalScoreDetection).2 =
        some witnessPrevRecord :=
  ⟨(match_creation_and_replacement [zeroSimFrame]).1.mpr
      ⟨zeroSimFrame, by simp, by simp [zeroSimFrame]⟩,
   (match_creation_and_replacement []).2 5 0 witnessPrevRecord equalScoreDetection
      (by norm_num [witnessPrevRecord])
      (by norm_num [similarity, equalScoreDetection, witnessPrevRecord])⟩

/-- Full session state of the `App` component: the `useState` fields, the
authentication flag, and the cooperative-scheduling bookkeeping of the scan
loop — whether an animation-frame callback is pending in `requestRef`,
whether a `detectAllFaces` call is awaiting its result (carrying the frame
content fixed at dispatch time), and the video element's paused/ended
flags. -/
structure MachState where
  isAuthenticated : Bool
  state : AppState
  targetImage : Option String
  videoSource : Option String
  bestMatch : Option FaceMatchResult
  currentSimilarity : ℚ
  targetDescriptor : Option (List ℚ)
  error : Option String
  videoPaused : Bool
  videoEnded : Bool
  rafScheduled : Bool
  inFlight : Option Frame
deriving DecidableEq, Repr

/-- Initial component state: unauthenticated, models loading, everything
else empty. -/
def initialState : MachState :=
  { isAuthenticated := false, state := .LOADING_MODELS, targetImage := none,
    videoSource := none, bestMatch := none, currentSimilarity := 0,
    targetDescriptor := none, error := none, videoPaused := true,
    videoEnded := false, rafScheduled := false, inFlight := none }

/-- Effect of the one-shot `loadModels` effect (mounted once, never retried):
on success the phase becomes idle; on failure only the error message is set
— the phase is left unchanged. -/
def loadModelsEffect (ok : Bool) (s : MachState) : MachState :=
  if ok then { s with state := .IDLE }
  else
    { s with
      error :=
        some "Failed to load AI models. Please check your internet connection." }

/-- Top-level screen selected by the component's early returns: the login
screen when unauthenticated, the loader while the phase is loading-models,
otherwise the main application. -/
inductive Screen
  | loginScreen
  | loaderScreen
  | mainScreen
deriving DecidableEq, Repr

/-- Render decision mirroring the component's conditions 1–3. -/
def renderScreen (s : MachState) : Screen :=
  if s.isAuthenticated = false then .loginScreen
  else if s.state = .LOADING_MODELS then .loaderScreen
  else .mainScreen

/-- The inline error banner is part of the main application's markup only;
it is visible exactly when the main screen renders and an error is set. -/
def errorBannerShown (s : MachState) : Bool :=
  decide (renderScreen s = .mainScreen) && s.error.isSome

/-- Outcome of the engine's single-face detection on an uploaded reference
image: a detection with its descriptor, a falsy result (no face), or a
thrown error. -/
inductive UploadOutcome
  | detected (descriptor : List ℚ)
  | noFace
  | failed
deriving DecidableEq, Repr

/-- Reference-image upload handler: sets the image URL and clears the best
match first, then computes the descriptor — on success stores it and clears
the error, on a falsy detection sets an error and clears the descriptor, on
a thrown error only sets an error. -/
def handleImageUpload (s : MachState) (url : String) (outcome : UploadOutcome) :
    MachState :=
  let s1 := { s with targetImage := some url, bestMatch := none }
  match outcome with
  | .detected desc => { s1 with targetDescriptor := some desc, error := none }
  | .noFace =>
      { s1 with
        error := some "No face detected in the target image. Please choose another.",
        targetDescriptor := none }
  | .failed => { s1 with error := some "Error processing target image." }

/-- Video upload handler: stores the source URL and clears the best match
and the displayed similarity. -/
def handleVideoUpload (s : MachState) (url : String) : MachState :=
  { s with videoSource := some url, bestMatch := none, currentSimilarity := 0 }

/-- The start button's disabled condition `!targetDescriptor`. -/
def startDisabled (s : MachState) : Bool := s.targetDescriptor.isNone

/-- Start action: requires the video element and a computed descriptor;
enters the processing phase, plays the video and lets the first
`processFrame` iteration run. -/
def startProcessing (s : MachState) : MachState :=
  if s.videoSource = none ∨ s.targetDescriptor = none then s
  else { s with state := .PROCESSING, videoPaused := false, rafScheduled := true }

/-- Stop action: pauses the video, cancels the pending animation-frame
callback, and moves the phase to finished. -/
def stopProcessing (s : MachState) : MachState :=
  { s with videoPaused := true, rafScheduled := false, state := .FINISHED }

/-- Reset action: stop, then clear every upload, the record, the descriptor,
the displayed similarity and the error, and return the phase to idle. -/
def resetApp (s : MachState) : MachState :=
  let s1 := stopProcessing s
  { s1 with targetImage := none, videoSource := none, bestMatch := none,
            targetDescriptor := none, currentSimilarity := 0,
            state := .IDLE, error := none }

/-- Synchronous head of one `processFrame` iteration, run when the host
fires the scheduled callback: finish on an ended video, idle-spin while
paused, otherwise dispatch the detection call on the current frame. The
callback runs only if still scheduled (cancellation is exact). -/
def frameTick (s : MachState) (f : Frame) : MachState :=
  if s.rafScheduled = false then s
  else
    let s1 := { s with rafScheduled := false }
    if s1.videoEnded then { s1 with state := .FINISHED }
    else if s1.videoPaused then { s1 with rafScheduled := true }
    else { s1 with inFlight := some f }

/-- Continuation of `processFrame` after the awaited detection call
resolves: processes the dispatched frame's detections, publishes the
frame-best similarity, and schedules the next iteration. Faithfully to the
source, it does NOT re-check the session phase before applying its
side effects. -/
def detectionReturn (s : MachState) : MachState :=
  match s.inFlight with
  | none => s
  | some f =>
      let res := processFrameDets f.time s.bestMatch f.dets
      { s with inFlight := none, bestMatch := res.2,
               currentSimilarity := res.1, rafScheduled := true }

/-- Interleaving events of the cooperative scheduler: a host tick running
the head of an iteration on the current frame, the resolution of the
in-flight detection call, and the user's stop action. -/
inductive Event
  | tick (f : Frame)
  | detectDone
  | stop
deriving Repr

/-- Event dispatch. -/
def stepEvent (s : MachState) : Event → MachState
  | .tick f => frameTick s f
  | .detectDone => detectionReturn s
  | .stop => stopProcessing s

/-- Execution of a finite event interleaving. -/
def runEvents (s : MachState) (es : List Event) : MachState :=
  es.foldl stepEvent s

/-- Mid-processing session state: authenticated, processing phase, video
playing, one scheduled animation-frame callback, no record yet, no
detection call in flight. -/
def midProcessingState : MachState :=
  { isAuthenticated := true, state := .PROCESSING, targetImage := some "target.png",
    videoSource := some "video.mp4", bestMatch := none, currentSimilarity := 0,
    targetDescriptor := some [0, 1], error := none, videoPaused := false,
    videoEnded := false, rafScheduled := true, inFlight := none }

/-- Frame whose single detection has distance 1/5, hence similarity 4/5. -/
def inFlightFrame : Frame :=
  { time := 2,
    dets := [{ distance := 1/5, age := 28, gender := "female",
               genderProbability := 4/5, expressions := [("surprised", 1)] }] }

/-- C4 counterexample: a detection call dispatched before the stop point
still applies its Match Record update after stop — after the trace
tick·stop the record is still absent and the phase is finished, yet the
pending detection's resolution then installs a record, i.e. a Match Record
update happens after the stop point. -/
theorem update_applied_after_stop_point :
    (runEvents midProcessingState [Event.tick inFlightFrame, Event.stop]).bestMatch
        = none ∧
      (runEvents midProcessingState [Event.tick inFlightFrame, Event.stop]).state
        = AppState.FINISHED ∧
      (runEvents midProcessingState
          [Event.tick inFlightFrame, Event.stop, Event.detectDone]).bestMatch
        = some { score := 4/5, timestamp := 2, age := 28, gender := "female",
                 genderProbability := 4/5, expression := some "surprised" } := by
  refine ⟨rfl, rfl, ?_⟩
  norm_num [runEvents, stepEvent, frameTick, detectionReturn, stopProcessing,
    midProcessingState, inFlightFrame, processFrameDets, stepDetection,
    similarity, mkMatchRecord, jsRound, dominantExpression, List.foldl]

/-- Once stopped with no detection call in flight, no later event changes
the record: the cancelled callback never runs and there is nothing to
resolve. -/
theorem runEvents_bestMatch_frozen (es : List Event) :
    ∀ s : MachState, s.rafScheduled = false → s.inFlight = none →
      (runEvents s es).bestMatch = s.bestMatch := by
  induction es with
  | nil => intro s _ _; rfl
  | cons e es ih =>
      intro s h1 h2
      cases e with
      | tick f =>
          have h : frameTick s f = s := by simp [frameTick, h1]
          show (runEvents (frameTick s f) es).bestMatch = s.bestMatch
          rw [h]
          exact ih s h1 h2
      | detectDone =>
          have h : detectionReturn s = s := by simp [detectionReturn, h2]
          show (runEvents (detectionReturn s) es).bestMatch = s.bestMatch
          rw [h]
          exact ih s h1 h2
      | stop =>
          show (runEvents (stopProcessing s) es).bestMatch = s.bestMatch
          have h3 : (stopProcessing s).inFlight = none := by
            simp [stopProcessing, h2]
          rw [ih (stopProcessing s) rfl h3]
          rfl

/-- C4 amended: after the stop action, the cancelled scheduled iteration
never runs, so when no detection call was in flight at the stop point no
further Match Record update ever occurs under any later interleaving of
events; a detection call already in flight, however, still applies its
update when it resolves (see the counterexample). -/
theorem no_update_after_stop_without_inflight (s : MachState) (es : List Event)
    (h : s.inFlight = none) :
    (runEvents (stopProcessing s) es).bestMatch = s.bestMatch := by
  have h3 : (stopProcessing s).inFlight = none := by simp [stopProcessing, h]
  rw [runEvents_bestMatch_frozen es (stopProcessing s) rfl h3]
  rfl

/-- Witness for `no_update_after_stop_without_inflight` at the concrete
mid-processing state and a tick·resolution trace after stop. -/
theorem no_update_after_stop_without_inflight_witness :
    midProcessingState.inFlight = none ∧
      (runEvents (stopProcessing midProcessingState)
          [Event.tick inFlightFrame, Event.detectDone]).bestMatch =
        midProcessingState.bestMatch :=
  ⟨rfl, no_update_after_stop_without_inflight midProcessingState
    [Event.tick inFlightFrame, Event.detectDone] rfl⟩

/-- State right after login while models are still loading. -/
def afterLoginLoadingState : MachState := { initialState with isAuthenticated := true }

/-- C7 evaluation at the failing input (model loading rejects): the phase
stays loading-models, the loader screen keeps rendering instead of a
terminal error display, and the error message set by the catch block is
never shown (the banner lives in the main screen's markup only). -/
theorem model_load_failure_stays_on_loader :
    (loadModelsEffect false afterLoginLoadingState).state = AppState.LOADING_MODELS ∧
      renderScreen (loadModelsEffect false afterLoginLoadingState) = Screen.loaderScreen ∧
      (loadModelsEffect false afterLoginLoadingState).error =
        some "Failed to load AI models. Please check your internet connection." ∧
      errorBannerShown (loadModelsEffect false afterLoginLoadingState) = false :=
  ⟨rfl, rfl, rfl, rfl⟩

/-- C8: a reference upload in which the engine does not detect exactly one
face sets the error message, leaves the descriptor absent, keeps the start
action disabled, leaves the session phase unchanged, and a later upload
with a detected face succeeds (the upload path stays active). -/
theorem upload_no_face_recoverable (s : MachState) (url : String) :
    (handleImageUpload s url .noFace).error =
        some "No face detected in the target image. Please choose another." ∧
      (handleImageUpload s url .noFace).targetDescriptor = none ∧
      startDisabled (handleImageUpload s url .noFace) = true ∧
      (handleImageUpload s url .noFace).state = s.state ∧
      ∀ (url2 : String) (desc : List ℚ),
        (handleImageUpload (handleImageUpload s url .noFace) url2
            (.detected desc)).targetDescriptor = some desc ∧
          (handleImageUpload (handleImageUpload s url .noFace) url2
            (.detected desc)).error = none := by
  refine ⟨rfl, rfl, rfl, rfl, ?_⟩
  intro url2 desc
  exact ⟨rfl, rfl⟩

/-- C9: the reset action restores every session field the claim lists to
the idle initial value — reference image, video source, descriptor, Match
Record, displayed similarity and error are cleared, and the phase becomes
idle. -/
theorem reset_restores_idle_defaults (s : MachState) :
    (resetApp s).targetImage = initialState.targetImage ∧
      (resetApp s).videoSource = initialState.videoSource ∧
      (resetApp s).targetDescriptor = initialState.targetDescriptor ∧
      (resetApp s).bestMatch = initialState.bestMatch ∧
      (resetApp s).currentSimilarity = initialState.currentSimilarity ∧
      (resetApp s).error = initialState.error ∧
      (resetApp s).state = AppState.IDLE :=
  ⟨rfl, rfl, rfl, rfl, rfl, rfl, rfl⟩

/-- C10 (implicit): every reference upload clears the Match Record to
absent before the descriptor computation, no matter how that computation
ends, while the video source, session phase and displayed similarity are
untouched. -/
theorem upload_clears_best_match (s : MachState) (url : String)
    (outcome : UploadOutcome) :
    (handleImageUpload s url outcome).bestMatch = none ∧
      (handleImageUpload s url outcome).videoSource = s.videoSource ∧
      (handleImageUpload s url outcome).state = s.state ∧
      (handleImageUpload s url outcome).currentSimilarity = s.currentSimilarity := by
  cases outcome <;> exact ⟨rfl, rfl, rfl, rfl⟩

end FaceTrace
